import Mathlib

/-
Verification development for the d3-template rendering harness.

Shallow embedding of the render/camera/frame-loop subsystem:
  * `src/camera.rs`  — `Camera`, `calculate_aspect_ratio`, `forward`,
    `view_projection`, `resize`, `update_position` (glam `Vec3`/`Mat4`
    arithmetic is modelled over ℝ; `f32` values become real numbers).
  * `src/mesh.rs`    — `Mesh::new` (buffer contents are modelled as the
    lists of values uploaded; `as u32` casts keep their `% 2^32`).
  * `src/renderer.rs`— `Renderer::{resize, update_camera_buffer, render}`
    (GPU command recording is modelled as an explicit command list; the
    surface-texture acquisition outcome is an explicit `Except` input;
    `assert!` failures become `Option.none`).
  * `src/app.rs`     — `App::{update, handle_window_event}` keyboard arm and
    the `RedrawRequested` arm of `AppLoadState::window_event`
    (`.unwrap()` on an `Err` becomes the `panicked` outcome).

A separate small model over an IEEE-754 value-class type (`F32M`) captures
the float-special-value behaviour of `calculate_aspect_ratio`, where the
real-number model cannot (division by zero producing infinity/NaN).
-/

/-! ### glam `Vec3`, modelled over ℝ -/

@[ext]
structure Vec3 where
  x : ℝ
  y : ℝ
  z : ℝ

instance : Zero Vec3 := ⟨⟨0, 0, 0⟩⟩

instance : Add Vec3 := ⟨fun a b => ⟨a.x + b.x, a.y + b.y, a.z + b.z⟩⟩

instance : Sub Vec3 := ⟨fun a b => ⟨a.x - b.x, a.y - b.y, a.z - b.z⟩⟩

/-- Scalar multiplication `k * v` (and `v * k`, which glam evaluates to the
same components). -/
def Vec3.smul (k : ℝ) (v : Vec3) : Vec3 := ⟨k * v.x, k * v.y, k * v.z⟩

/-- glam `Vec3::dot`. -/
def Vec3.dot (a b : Vec3) : ℝ := a.x * b.x + a.y * b.y + a.z * b.z

/-- glam `Vec3::cross`. -/
def Vec3.cross (a b : Vec3) : Vec3 :=
  ⟨a.y * b.z - a.z * b.y, a.z * b.x - a.x * b.z, a.x * b.y - a.y * b.x⟩

/-- glam `Vec3::length` = `sqrt(dot(self, self))`. -/
noncomputable def Vec3.length (v : Vec3) : ℝ := Real.sqrt (v.dot v)

/-- glam `Vec3::normalize` = `self * (1 / length)`. -/
noncomputable def Vec3.normalize (v : Vec3) : Vec3 := Vec3.smul v.length⁻¹ v

-- glam `Vec3::normalize_or_zero`: the reciprocal of the length is finite and
-- positive exactly when the length is non-zero (it is never negative), in
-- which case the vector is scaled by it; otherwise the zero vector is
-- returned.
open Classical in
noncomputable def Vec3.normalize_or_zero (v : Vec3) : Vec3 :=
  if v.length = 0 then 0 else Vec3.smul v.length⁻¹ v

@[simp] lemma Vec3.zero_x : (0 : Vec3).x = 0 := rfl

@[simp] lemma Vec3.zero_y : (0 : Vec3).y = 0 := rfl

@[simp] lemma Vec3.zero_z : (0 : Vec3).z = 0 := rfl

@[simp] lemma Vec3.add_x (a b : Vec3) : (a + b).x = a.x + b.x := rfl

@[simp] lemma Vec3.add_y (a b : Vec3) : (a + b).y = a.y + b.y := rfl

@[simp] lemma Vec3.add_z (a b : Vec3) : (a + b).z = a.z + b.z := rfl

@[simp] lemma Vec3.sub_x (a b : Vec3) : (a - b).x = a.x - b.x := rfl

@[simp] lemma Vec3.sub_y (a b : Vec3) : (a - b).y = a.y - b.y := rfl

@[simp] lemma Vec3.sub_z (a b : Vec3) : (a - b).z = a.z - b.z := rfl

@[simp] lemma Vec3.smul_x (k : ℝ) (v : Vec3) : (Vec3.smul k v).x = k * v.x := rfl

@[simp] lemma Vec3.smul_y (k : ℝ) (v : Vec3) : (Vec3.smul k v).y = k * v.y := rfl

@[simp] lemma Vec3.smul_z (k : ℝ) (v : Vec3) : (Vec3.smul k v).z = k * v.z := rfl

lemma Vec3.dot_self_nonneg (v : Vec3) : 0 ≤ v.dot v := by
  unfold Vec3.dot
  nlinarith [mul_self_nonneg v.x, mul_self_nonneg v.y, mul_self_nonneg v.z]

lemma Vec3.length_nonneg (v : Vec3) : 0 ≤ v.length := Real.sqrt_nonneg _

lemma Vec3.length_eq_zero_iff (v : Vec3) : v.length = 0 ↔ v = 0 := by
  unfold Vec3.length
  rw [Real.sqrt_eq_zero (Vec3.dot_self_nonneg v)]
  unfold Vec3.dot
  constructor
  · intro h
    have hx : v.x * v.x = 0 := by
      nlinarith [mul_self_nonneg v.x, mul_self_nonneg v.y, mul_self_nonneg v.z]
    have hy : v.y * v.y = 0 := by
      nlinarith [mul_self_nonneg v.x, mul_self_nonneg v.y, mul_self_nonneg v.z]
    have hz : v.z * v.z = 0 := by
      nlinarith [mul_self_nonneg v.x, mul_self_nonneg v.y, mul_self_nonneg v.z]
    ext <;> simp [mul_self_eq_zero.mp hx, mul_self_eq_zero.mp hy, mul_self_eq_zero.mp hz]
  · intro h
    subst h
    simp

lemma Vec3.length_smul (k : ℝ) (v : Vec3) :
    (Vec3.smul k v).length = |k| * v.length := by
  unfold Vec3.length Vec3.smul Vec3.dot
  have h : k * v.x * (k * v.x) + k * v.y * (k * v.y) + k * v.z * (k * v.z) =
      k ^ 2 * (v.x * v.x + v.y * v.y + v.z * v.z) := by ring
  simp only [h]
  rw [Real.sqrt_mul (sq_nonneg k), Real.sqrt_sq_eq_abs]

lemma Vec3.length_normalize_or_zero (v : Vec3) (h : v ≠ 0) :
    (Vec3.normalize_or_zero v).length = 1 := by
  have hl : v.length ≠ 0 := fun hl => h ((Vec3.length_eq_zero_iff v).mp hl)
  have hpos : 0 < v.length := lt_of_le_of_ne (Vec3.length_nonneg v) (Ne.symm hl)
  unfold Vec3.normalize_or_zero
  rw [if_neg hl, Vec3.length_smul, abs_inv, abs_of_pos hpos, inv_mul_cancel₀ hl]

/-! ### winit input types (`KeyCode`, `PhysicalKey`, `ElementState`,
`PhysicalSize<u32>`) -/

/-- The physical key codes the application reads, plus `other` for every
remaining identified code of the winit enum. -/
inductive KeyCode where
  | keyW
  | keyA
  | keyS
  | keyD
  | space
  | shiftLeft
  | escape
  | other (code : Nat)
deriving DecidableEq

/-- winit `PhysicalKey`: an identified key code or an unidentified raw code. -/
inductive PhysicalKey where
  | code (c : KeyCode)
  | unidentified (code : Nat)
deriving DecidableEq

/-- winit `ElementState`. -/
inductive ElementState where
  | pressed
  | released
deriving DecidableEq

/-- winit `PhysicalSize<u32>`. The widths/heights flow through unchanged (no
arithmetic), so `Nat` models `u32` exactly here. -/
structure PhysicalSizeU where
  width : Nat
  height : Nat
deriving DecidableEq

/-! ### Camera (`src/camera.rs`) -/

/-- `Camera` of `src/camera.rs`, with `f32` fields as ℝ. -/
structure Camera where
  eye : Vec3
  up : Vec3
  yaw : ℝ
  pitch : ℝ
  aspect_ratio : ℝ

/-- `calculate_aspect_ratio`: `width as f32 / height as f32`, in the
real-number model (the IEEE behaviour at `height = 0` is modelled separately
by `calculate_aspect_ratioF`). -/
noncomputable def calculate_aspect_ratio (size : PhysicalSizeU) : ℝ :=
  (size.width : ℝ) / (size.height : ℝ)

/-- `Camera::new`: `up` is `Vec3::Y`. -/
noncomputable def Camera.new (eye : Vec3) (yaw pitch : ℝ) (size : PhysicalSizeU) :
    Camera :=
  { eye := eye
    up := ⟨0, 1, 0⟩
    yaw := yaw
    pitch := pitch
    aspect_ratio := calculate_aspect_ratio size }

/-- `Camera::forward`: recomputed from `yaw` and `pitch` on every call. -/
noncomputable def Camera.forward (c : Camera) : Vec3 :=
  ⟨Real.cos c.yaw * Real.cos c.pitch,
   Real.sin c.pitch,
   Real.sin c.yaw * Real.cos c.pitch⟩

/-- 4×4 `f32` matrices (glam `Mat4`), modelled over ℝ. -/
abbrev Mat4 := Matrix (Fin 4) (Fin 4) ℝ

/-- glam `Mat4::look_to_rh` (column-major constructor written out as rows). -/
noncomputable def Mat4.look_to_rh (eye dir up : Vec3) : Mat4 :=
  let f := dir.normalize
  let s := (f.cross up).normalize
  let u := s.cross f
  !![s.x, s.y, s.z, -(eye.dot s);
     u.x, u.y, u.z, -(eye.dot u);
     -f.x, -f.y, -f.z, eye.dot f;
     0, 0, 0, 1]

/-- glam `Mat4::look_at_rh`. -/
noncomputable def Mat4.look_at_rh (eye center up : Vec3) : Mat4 :=
  Mat4.look_to_rh eye (center - eye) up

/-- glam `Mat4::perspective_infinite_rh`. -/
noncomputable def Mat4.perspective_infinite_rh (fov_y aspect z_near : ℝ) : Mat4 :=
  let f := (Real.tan (0.5 * fov_y))⁻¹
  !![f / aspect, 0, 0, 0;
     0, f, 0, 0;
     0, 0, -1, -z_near;
     0, 0, -1, 0]

/-- `Camera::view_projection`: right-handed look-at view toward
`eye + forward`, composed with an infinite-far-plane perspective projection,
vertical FOV `45°.to_radians()`, near plane `0.01`. -/
noncomputable def Camera.view_projection (c : Camera) : Mat4 :=
  let forward := c.forward
  let view := Mat4.look_at_rh c.eye (forward + c.eye) c.up
  let proj := Mat4.perspective_infinite_rh (45 * Real.pi / 180) c.aspect_ratio 0.01
  proj * view

/-- `Camera::resize`. -/
noncomputable def Camera.resize (c : Camera) (size : PhysicalSizeU) : Camera :=
  { c with aspect_ratio := calculate_aspect_ratio size }

/-- The movement direction `Camera::update_position` accumulates from the
held keys, before normalization (the `delta` local of the source, built in
source order: W, S, D, A, Space, ShiftLeft). -/
noncomputable def Camera.move_delta (c : Camera) (keys_down : Finset KeyCode) : Vec3 :=
  let forward := c.forward
  let right := forward.cross c.up
  let d : Vec3 := 0
  let d := if KeyCode.keyW ∈ keys_down then d + forward else d
  let d := if KeyCode.keyS ∈ keys_down then d - forward else d
  let d := if KeyCode.keyD ∈ keys_down then d + right else d
  let d := if KeyCode.keyA ∈ keys_down then d - right else d
  let d := if KeyCode.space ∈ keys_down then d + c.up else d
  let d := if KeyCode.shiftLeft ∈ keys_down then d - c.up else d
  d

/-- `Camera::update_position`:
`self.eye += 5.0 * delta.normalize_or_zero() * dt`. -/
noncomputable def Camera.update_position (c : Camera) (keys_down : Finset KeyCode)
    (dt : ℝ) : Camera :=
  { c with
    eye := c.eye +
      Vec3.smul dt (Vec3.smul 5 (Vec3.normalize_or_zero (Camera.move_delta c keys_down))) }

/-! ### Mesh (`src/mesh.rs`) -/

/-- `Vertex`: `{ pos: [f32; 3], color: [f32; 3] }`. The per-component values
are only carried as data here, so ℚ (exact binary fractions of the source
literals) suffices. -/
structure VertexM where
  pos : ℚ × ℚ × ℚ
  color : ℚ × ℚ × ℚ
deriving DecidableEq

/-- `Mesh`: the vertex and index buffers are modelled by the lists of values
uploaded to them; `count` is `vertices.len() as u32`. -/
structure MeshM where
  vertex_buffer : List VertexM
  index_buffer : List Nat
  count : Nat
deriving DecidableEq

/-- `Mesh::new`: uploads both slices and records `vertices.len() as u32`
(the `as u32` cast truncates mod `2^32`). -/
def Mesh.new (vertices : List VertexM) (indices : List Nat) : MeshM :=
  { vertex_buffer := vertices
    index_buffer := indices
    count := vertices.length % 2 ^ 32 }

/-! ### Renderer (`src/renderer.rs`) -/

/-- The wgpu commands `Renderer::render` records, in order. `drawIndexed` is
in the vocabulary (wgpu's `draw_indexed`) so that its absence from a recorded
frame is expressible; `draw` is the non-indexed call with a vertex range and
an instance range. -/
inductive RenderCommand where
  | beginRenderPass
  | setPipeline
  | setBindGroup (slot : Nat)
  | setVertexBuffer (slot : Nat)
  | setIndexBuffer
  | draw (vertexStart vertexEnd instanceStart instanceEnd : Nat)
  | drawIndexed (indexStart indexEnd : Nat) (baseVertex : Int)
      (instanceStart instanceEnd : Nat)
  | endRenderPass
deriving DecidableEq

/-- True exactly for `beginRenderPass`. -/
def RenderCommand.isBeginRenderPass : RenderCommand → Bool
  | .beginRenderPass => true
  | _ => false

/-- True exactly for the non-indexed `draw`. -/
def RenderCommand.isDraw : RenderCommand → Bool
  | .draw _ _ _ _ => true
  | _ => false

/-- True exactly for `drawIndexed`. -/
def RenderCommand.isDrawIndexed : RenderCommand → Bool
  | .drawIndexed _ _ _ _ _ => true
  | _ => false

/-- wgpu `SurfaceError`: the variants `get_current_texture` can return. -/
inductive SurfaceError where
  | timeout
  | outdated
  | lost
  | outOfMemory
deriving DecidableEq

/-- `SurfaceConfiguration`: the fields `Renderer::resize` touches, plus the
format chosen at startup (shown unchanged by resize). -/
structure SurfaceConfigM where
  format : Nat
  width : Nat
  height : Nat
deriving DecidableEq

/-- `Renderer`: the surface configuration it owns, the history of
configurations applied to the surface (`surface.configure` calls, most recent
first), the contents of the camera uniform buffer, and the mesh. -/
structure RendererM where
  surface_config : SurfaceConfigM
  surface_applied : List SurfaceConfigM
  camera_buffer : Mat4
  mesh : MeshM

/-- `Renderer::update_camera_buffer`: queues a write of the matrix to the
camera uniform buffer at offset 0 (effective before the next frame's
submission — single mutator thread). -/
def Renderer.update_camera_buffer (r : RendererM) (view_proj : Mat4) : RendererM :=
  { r with camera_buffer := view_proj }

/-- `Renderer::resize`: `assert!(width > 0)`, `assert!(height > 0)` (a failed
assertion — `none` — aborts), then mutates the stored configuration's width
and height and re-applies it to the surface. -/
def Renderer.resize (r : RendererM) (size : PhysicalSizeU) : Option RendererM :=
  if size.width > 0 then
    if size.height > 0 then
      let config := { r.surface_config with width := size.width, height := size.height }
      some { r with surface_config := config, surface_applied := config :: r.surface_applied }
    else none
  else none

/-- The command sequence recorded between `begin_render_pass` and the end of
the pass scope in `Renderer::render`, plus the pass begin/end themselves:
clear, set pipeline, bind the camera group at slot 0, bind the vertex buffer
at slot 0 and the index buffer, then `draw(0..self.mesh.count, 0..1)` —
wgpu's non-indexed draw with a single instance. -/
def renderPassCommands (mesh : MeshM) : List RenderCommand :=
  [RenderCommand.beginRenderPass,
   RenderCommand.setPipeline,
   RenderCommand.setBindGroup 0,
   RenderCommand.setVertexBuffer 0,
   RenderCommand.setIndexBuffer,
   RenderCommand.draw 0 mesh.count 0 1,
   RenderCommand.endRenderPass]

/-- What a successful `Renderer::render` produces: the recorded command list
submitted to the queue, and the camera-uniform contents the submitted pass
consumes (the buffer's value at submission time). -/
structure FrameRender where
  commands : List RenderCommand
  consumedVP : Mat4

/-- `Renderer::render`: `self.surface.get_current_texture()?` propagates any
acquisition error via `?`; on success the render pass is recorded, submitted
and the texture presented. The acquisition outcome is the explicit input
`acquired`. -/
def Renderer.render (r : RendererM) (acquired : Except SurfaceError Unit) :
    Except SurfaceError FrameRender :=
  match acquired with
  | .error e => .error e
  | .ok _ => .ok { commands := renderPassCommands r.mesh, consumedVP := r.camera_buffer }

/-! ### Application (`src/app.rs`) -/

/-- `App`: renderer, camera, input state. `window` and `last_frame` live
outside the model (the wall clock enters as the `dt` parameter of `update`,
and the cursor-grab calls are window side effects). -/
structure AppM where
  renderer : RendererM
  camera : Camera
  delta_time : ℝ
  has_focus : Bool
  keys_down : Finset KeyCode

/-- `App::update` with the computed `dt` as input: stores `dt`, updates the
camera position from the held keys only while focused, then pushes the fresh
`view_projection` into the renderer's camera uniform buffer. -/
noncomputable def App.update (s : AppM) (dt : ℝ) : AppM :=
  let camera := if s.has_focus then Camera.update_position s.camera s.keys_down dt
                else s.camera
  { s with
    delta_time := dt
    camera := camera
    renderer := Renderer.update_camera_buffer s.renderer (Camera.view_projection camera) }

/-- `App::render`: delegates to `Renderer::render`. -/
def App.render (s : AppM) (acquired : Except SurfaceError Unit) :
    Except SurfaceError FrameRender :=
  Renderer.render s.renderer acquired

/-- The `WindowEvent::KeyboardInput` arm of `App::handle_window_event`:
unidentified keys are logged and dropped; `Escape` clears `has_focus` and
returns (on press and release alike) before the held-key set is touched;
any other identified code is inserted on press and removed on release. -/
def App.handle_keyboard_input (s : AppM) (physical_key : PhysicalKey)
    (state : ElementState) : AppM :=
  match physical_key with
  | .unidentified _ => s
  | .code code =>
    if code = KeyCode.escape then
      { s with has_focus := false }
    else
      match state with
      | .pressed => { s with keys_down := insert code s.keys_down }
      | .released => { s with keys_down := s.keys_down.erase code }

/-- A sequence of keyboard events fed through the handler in order. -/
def App.handle_keyboard_events (s : AppM)
    (events : List (PhysicalKey × ElementState)) : AppM :=
  events.foldl (fun s e => App.handle_keyboard_input s e.1 e.2) s

/-- Outcome of one `WindowEvent::RedrawRequested` dispatch. `continued`
carries the view-projection matrix the frame's render pass consumed, the
application state after the frame's update, and whether the next redraw was
requested; `panicked` is the `.unwrap()` on an `Err`. -/
inductive FrameOutcome where
  | continued (usedVP : Mat4) (s : AppM) (redrawRequested : Bool)
  | panicked

/-- The `RedrawRequested` arm of `AppLoadState::window_event`:
`app.render().unwrap(); app.update().unwrap(); window.request_redraw();`.
`App::update` never returns `Err`, so its unwrap cannot fire. -/
noncomputable def redrawFrame (s : AppM) (acquired : Except SurfaceError Unit)
    (dt : ℝ) : FrameOutcome :=
  match App.render s acquired with
  | .error _ => .panicked
  | .ok fr => .continued fr.consumedVP (App.update s dt) true

/-! ### IEEE-754 value-class model for `calculate_aspect_ratio`
(`src/camera.rs`) -/

/-- An `f32` by value class: a finite value (carried exactly as a rational —
rounding never moves a value between classes for the `u32`-derived operands
used here), positive/negative infinity, or NaN. The sign of zero is not
tracked (it does not matter to any property below). -/
inductive F32M where
  | finite (q : ℚ)
  | posInf
  | negInf
  | nan
deriving DecidableEq

/-- True exactly for finite values. -/
def F32M.isFinite : F32M → Bool
  | .finite _ => true
  | _ => false

/-- IEEE-754 division at the value-class level: `0/0` is NaN, finite nonzero
over zero is a signed infinity, finite over infinity is zero, NaN
propagates; the finite/finite-nonzero case keeps the exact quotient. -/
def F32M.div : F32M → F32M → F32M
  | .nan, _ => .nan
  | _, .nan => .nan
  | .finite a, .finite b =>
    if b = 0 then (if a = 0 then .nan else if 0 < a then .posInf else .negInf)
    else .finite (a / b)
  | .finite _, .posInf => .finite 0
  | .finite _, .negInf => .finite 0
  | .posInf, .finite b => if b < 0 then .negInf else .posInf
  | .negInf, .finite b => if b < 0 then .posInf else .negInf
  | .posInf, _ => .nan
  | .negInf, _ => .nan

/-- `calculate_aspect_ratio` at IEEE level: `width as f32 / height as f32`
(every `u32` casts to a finite `f32`). -/
def calculate_aspect_ratioF (size : PhysicalSizeU) : F32M :=
  F32M.div (F32M.finite (size.width : ℚ)) (F32M.finite (size.height : ℚ))

/-- The `aspect_ratio` field of `Camera` at IEEE level (the one field whose
float special values the real-number `Camera` cannot express). -/
structure CameraAspectF where
  aspect_ratio : F32M
deriving DecidableEq

/-- `Camera::resize` at IEEE level: unconditionally stores
`calculate_aspect_ratio(size)` — no assertion, no clamping. -/
def Camera.resizeF (c : CameraAspectF) (size : PhysicalSizeU) : CameraAspectF :=
  { c with aspect_ratio := calculate_aspect_ratioF size }

/-- The entry through which `Camera::view_projection` consumes
`aspect_ratio`: element (0,0) of glam's `perspective_infinite_rh`,
`f / aspect_ratio` where `f = 1/tan(fov/2)` — a total computation, so a
non-finite aspect ratio flows through without any error. -/
def perspective_m00F (f aspect : F32M) : F32M := F32M.div f aspect

/-! ### Concrete instances (the values `App::new` and `Renderer::new`
construct) -/

/-- The camera `App::new` builds: `eye = (0,0,3)`, `yaw = -FRAC_PI_2`,
`pitch = 0`, at the window's initial 1920×1080 size. -/
noncomputable def initialCamera : Camera :=
  Camera.new ⟨0, 0, 3⟩ (-(Real.pi / 2)) 0 ⟨1920, 1080⟩

/-- The placeholder triangle `Renderer::new` uploads via `Mesh::new`. -/
def triangleMesh : MeshM :=
  Mesh.new
    [{ pos := (0, 1/2, 0), color := (1, 0, 0) },
     { pos := (-1/2, -1/2, 0), color := (0, 1, 0) },
     { pos := (1/2, -1/2, 0), color := (0, 0, 1) }]
    [0, 1, 2]

/-- A mesh with four vertices and six indices (two triangles), as
`Mesh::new` accepts. -/
def quadMesh : MeshM :=
  Mesh.new
    [{ pos := (0, 0, 0), color := (0, 0, 0) },
     { pos := (1, 0, 0), color := (0, 0, 0) },
     { pos := (1, 1, 0), color := (0, 0, 0) },
     { pos := (0, 1, 0), color := (0, 0, 0) }]
    [0, 1, 2, 0, 2, 3]

/-- The renderer state after `Renderer::new`: the surface configured once at
creation, the camera uniform buffer initialised from the camera's
view-projection (`Camera::create_buffer`), and the placeholder triangle. -/
noncomputable def initialRenderer : RendererM :=
  { surface_config := { format := 0, width := 1920, height := 1080 }
    surface_applied := [{ format := 0, width := 1920, height := 1080 }]
    camera_buffer := Camera.view_projection initialCamera
    mesh := triangleMesh }

/-- The application state after `App::new`: no focus, no held keys,
`delta_time = 0`. -/
noncomputable def initialApp : AppM :=
  { renderer := initialRenderer
    camera := initialCamera
    delta_time := 0
    has_focus := false
    keys_down := ∅ }

/-! ### Claims -/

/-- C1 counterexample: when surface-texture acquisition fails with the
recoverable `Outdated` condition, the frame loop does not continue with the
next frame — the `RedrawRequested` arm `.unwrap()`s the render result and
panics. -/
theorem redraw_panics_on_outdated :
    redrawFrame initialApp (Except.error SurfaceError.outdated) (1 / 60) =
      FrameOutcome.panicked := rfl

/-- C1 amended: a recoverable (lost/outdated) acquisition failure is
propagated by `Renderer::render` as an explicit `Result` value up to the
redraw handler at the frame-loop boundary, where the frame loop unwraps it
and treats every render error as fatal (panic), not as a frame-skip. -/
theorem render_error_propagates_then_panics (s : AppM) (dt : ℝ) (e : SurfaceError)
    (_h : e = SurfaceError.lost ∨ e = SurfaceError.outdated) :
    App.render s (Except.error e) = Except.error e ∧
    redrawFrame s (Except.error e) dt = FrameOutcome.panicked :=
  ⟨rfl, rfl⟩

/-- Witness for C1's amended theorem at the `Lost` error. -/
theorem render_error_propagates_then_panics_witness :
    App.render initialApp (Except.error SurfaceError.lost) =
      Except.error SurfaceError.lost ∧
    redrawFrame initialApp (Except.error SurfaceError.lost) (1 / 30) =
      FrameOutcome.panicked :=
  render_error_propagates_then_panics initialApp (1 / 30) SurfaceError.lost (Or.inl rfl)

/-- C2 counterexample: for a four-vertex, six-index mesh, a successful
`Renderer::render` records no indexed draw at all; the one draw recorded is
non-indexed and covers `0..4` — the vertex count — not the full index range
`0..6` of the mesh's index buffer. -/
theorem render_draw_is_not_indexed :
    Renderer.render { initialRenderer with mesh := quadMesh } (Except.ok ()) =
      Except.ok { commands := renderPassCommands quadMesh
                  consumedVP := initialRenderer.camera_buffer } ∧
    quadMesh.index_buffer.length = 6 ∧
    quadMesh.count = 4 ∧
    (renderPassCommands quadMesh).filter RenderCommand.isDrawIndexed = [] ∧
    RenderCommand.draw 0 4 0 1 ∈ renderPassCommands quadMesh ∧
    RenderCommand.draw 0 6 0 1 ∉ renderPassCommands quadMesh :=
  ⟨rfl, by decide, by decide, by decide, by decide, by decide⟩

/-- C2 amended: every successful `Renderer::render` records exactly one
render pass which issues exactly one draw call with a single instance — but
it is wgpu's non-indexed `draw` over the vertex range `0..mesh.count`
(where `count` is the vertex count recorded by `Mesh::new`), and no
`draw_indexed` call is recorded even though the index buffer is bound. -/
theorem render_single_nonindexed_draw (r : RendererM) :
    Renderer.render r (Except.ok ()) =
      Except.ok { commands := renderPassCommands r.mesh
                  consumedVP := r.camera_buffer } ∧
    (renderPassCommands r.mesh).filter RenderCommand.isBeginRenderPass =
      [RenderCommand.beginRenderPass] ∧
    (renderPassCommands r.mesh).filter RenderCommand.isDraw =
      [RenderCommand.draw 0 r.mesh.count 0 1] ∧
    (renderPassCommands r.mesh).filter RenderCommand.isDrawIndexed = [] := by
  refine ⟨rfl, ?_, ?_, ?_⟩ <;>
    simp [renderPassCommands, RenderCommand.isBeginRenderPass, RenderCommand.isDraw,
      RenderCommand.isDrawIndexed]

/-- C3: each `RedrawRequested` dispatch renders first and updates second:
the matrix consumed by frame N's render pass is the buffer content from the
end of update N−1 (the state before frame N's update ran), frame N's update
then uploads the view-projection of the freshly updated camera, frame N+1's
render pass consumes exactly that matrix, and each successful frame requests
the next redraw. -/
theorem render_before_update_one_frame_lag (s : AppM) (dt₁ dt₂ : ℝ) :
    redrawFrame s (Except.ok ()) dt₁ =
      FrameOutcome.continued s.renderer.camera_buffer (App.update s dt₁) true ∧
    (App.update s dt₁).renderer.camera_buffer =
      Camera.view_projection (App.update s dt₁).camera ∧
    redrawFrame (App.update s dt₁) (Except.ok ()) dt₂ =
      FrameOutcome.continued (Camera.view_projection (App.update s dt₁).camera)
        (App.update (App.update s dt₁) dt₂) true :=
  ⟨rfl, rfl, rfl⟩

/-- C6: `Renderer::resize` hits an assertion failure exactly when the new
width or height is zero (never clamping), and for positive dimensions it
rewrites the stored surface configuration's width and height and re-applies
that configuration to the surface, leaving the format untouched. -/
theorem renderer_resize_contract (r : RendererM) (size : PhysicalSizeU) :
    (Renderer.resize r size = none ↔ size.width = 0 ∨ size.height = 0) ∧
    (0 < size.width → 0 < size.height →
      Renderer.resize r size =
        some { r with
          surface_config :=
            { r.surface_config with width := size.width, height := size.height }
          surface_applied :=
            { r.surface_config with width := size.width, height := size.height } ::
              r.surface_applied }) := by
  constructor
  · unfold Renderer.resize
    rcases Nat.eq_zero_or_pos size.width with hw | hw
    · simp [hw]
    · rcases Nat.eq_zero_or_pos size.height with hh | hh
      · simp [hw, hh]
      · simp [hw, hh, Nat.pos_iff_ne_zero.mp hw, Nat.pos_iff_ne_zero.mp hh]
  · intro hw hh
    unfold Renderer.resize
    simp [hw, hh]

/-- Witness for C6: resizing to 0×600 fails the contract; resizing to
800×600 stores and re-applies the new dimensions. -/
theorem renderer_resize_contract_witness :
    Renderer.resize initialRenderer ⟨0, 600⟩ = none ∧
    Renderer.resize initialRenderer ⟨800, 600⟩ =
      some { initialRenderer with
        surface_config :=
          { initialRenderer.surface_config with width := 800, height := 600 }
        surface_applied :=
          { initialRenderer.surface_config with width := 800, height := 600 } ::
            initialRenderer.surface_applied } :=
  ⟨(renderer_resize_contract initialRenderer ⟨0, 600⟩).1.mpr (Or.inl rfl),
   (renderer_resize_contract initialRenderer ⟨800, 600⟩).2 (by decide) (by decide)⟩

/-- C7 counterexample: with `W` held and focus active, pressing Escape sets
`has_focus` to false but does NOT clear the held-key set — `W` is still
recorded as held after the focus loss. -/
theorem escape_does_not_clear_keys :
    (App.handle_keyboard_input
        { initialApp with has_focus := true, keys_down := {KeyCode.keyW} }
        (PhysicalKey.code KeyCode.escape) ElementState.pressed).has_focus = false ∧
    KeyCode.keyW ∈ (App.handle_keyboard_input
        { initialApp with has_focus := true, keys_down := {KeyCode.keyW} }
        (PhysicalKey.code KeyCode.escape) ElementState.pressed).keys_down :=
  ⟨rfl, by decide⟩

/-- C7 amended: when the Escape key sets `has_focus` to false, the
`keys_down` set is left exactly as it was — no key is removed. The keys
merely stop having an effect because `App::update` gates movement on
`has_focus`; they remain recorded as held. -/
theorem escape_leaves_keys_down (s : AppM) (state : ElementState) :
    (App.handle_keyboard_input s (PhysicalKey.code KeyCode.escape) state).has_focus
        = false ∧
    (App.handle_keyboard_input s (PhysicalKey.code KeyCode.escape) state).keys_down
        = s.keys_down :=
  ⟨rfl, rfl⟩

/-- C9: `Camera::resize` performs no validation: a zero height is accepted
without any error (in contrast, `Renderer::resize` rejects the same size),
and the stored aspect ratio is non-finite — NaN when the width is also zero,
+∞ otherwise — which the aspect-consuming projection entry of a subsequent
`view_projection` call silently turns into NaN or a degenerate 0. -/
theorem camera_resize_zero_height (c : CameraAspectF) (w : Nat) :
    (Camera.resizeF c ⟨w, 0⟩).aspect_ratio
        = (if w = 0 then F32M.nan else F32M.posInf) ∧
    ((Camera.resizeF c ⟨w, 0⟩).aspect_ratio).isFinite = false ∧
    (∀ q : ℚ, perspective_m00F (F32M.finite q) (Camera.resizeF c ⟨w, 0⟩).aspect_ratio
        = (if w = 0 then F32M.nan else F32M.finite 0)) ∧
    (∀ r : RendererM, Renderer.resize r ⟨w, 0⟩ = none) := by
  have har : calculate_aspect_ratioF ⟨w, 0⟩ = (if w = 0 then F32M.nan else F32M.posInf) := by
    unfold calculate_aspect_ratioF F32M.div
    rcases Nat.eq_zero_or_pos w with hw | hw
    · simp [hw]
    · have h1 : ((w : ℚ)) ≠ 0 := Nat.cast_ne_zero.mpr (Nat.pos_iff_ne_zero.mp hw)
      have h2 : (0 : ℚ) < (w : ℚ) := by exact_mod_cast hw
      simp [h1, h2, Nat.pos_iff_ne_zero.mp hw]
  refine ⟨har ▸ rfl, ?_, ?_, ?_⟩
  · show (Camera.resizeF c ⟨w, 0⟩).aspect_ratio.isFinite = false
    have hr : (Camera.resizeF c ⟨w, 0⟩).aspect_ratio
        = (if w = 0 then F32M.nan else F32M.posInf) := har
    rw [hr]
    rcases Nat.eq_zero_or_pos w with hw | hw
    · simp [hw, F32M.isFinite]
    · simp [Nat.pos_iff_ne_zero.mp hw, F32M.isFinite]
  · intro q
    have hr : (Camera.resizeF c ⟨w, 0⟩).aspect_ratio
        = (if w = 0 then F32M.nan else F32M.posInf) := har
    rw [perspective_m00F, hr]
    rcases Nat.eq_zero_or_pos w with hw | hw
    · simp [hw, F32M.div]
    · simp [Nat.pos_iff_ne_zero.mp hw, F32M.div]
  · intro r
    unfold Renderer.resize
    simp

/-- C10: the Escape code is never inserted into `keys_down`: starting from
any state not recording Escape as held, no sequence of keyboard events makes
the handler record it — the Escape branch returns before the insert/remove
mutation on both press and release. -/
theorem escape_never_held (s : AppM) (events : List (PhysicalKey × ElementState))
    (h : KeyCode.escape ∉ s.keys_down) :
    KeyCode.escape ∉ (App.handle_keyboard_events s events).keys_down := by
  induction events generalizing s with
  | nil => exact h
  | cons e rest ih =>
    apply ih
    rcases e with ⟨pk, st⟩
    cases pk with
    | unidentified code => exact h
    | code code =>
      by_cases hc : code = KeyCode.escape
      · simpa [App.handle_keyboard_input, hc] using h
      · cases st with
        | pressed =>
          simp only [App.handle_keyboard_input, if_neg hc, Finset.mem_insert]
          rintro (heq | hmem)
          · exact hc heq.symm
          · exact h hmem
        | released =>
          simp only [App.handle_keyboard_input, if_neg hc, Finset.mem_erase]
          rintro ⟨-, hmem⟩
          exact h hmem

/-- Witness for C10: from the freshly constructed application (no keys
held), a session that presses W, presses Escape and releases Escape still
never records Escape as held. -/
theorem escape_never_held_witness :
    KeyCode.escape ∉ initialApp.keys_down ∧
    KeyCode.escape ∉ (App.handle_keyboard_events initialApp
      [(PhysicalKey.code KeyCode.keyW, ElementState.pressed),
       (PhysicalKey.code KeyCode.escape, ElementState.pressed),
       (PhysicalKey.code KeyCode.escape, ElementState.released)]).keys_down :=
  ⟨by decide,
   escape_never_held initialApp
     [(PhysicalKey.code KeyCode.keyW, ElementState.pressed),
      (PhysicalKey.code KeyCode.escape, ElementState.pressed),
      (PhysicalKey.code KeyCode.escape, ElementState.released)] (by decide)⟩

/-- C5: `Camera::forward` returns exactly
`(cos yaw · cos pitch, sin pitch, sin yaw · cos pitch)`, a vector of length
exactly 1 for every yaw and pitch, and it is a pure function of the two
angles alone — any two cameras agreeing on `yaw` and `pitch` agree on
`forward`, whatever their other state (nothing is stored to desync from). -/
theorem forward_formula_unit_pure (c c' : Camera)
    (hy : c.yaw = c'.yaw) (hp : c.pitch = c'.pitch) :
    Camera.forward c =
      ⟨Real.cos c.yaw * Real.cos c.pitch, Real.sin c.pitch,
       Real.sin c.yaw * Real.cos c.pitch⟩ ∧
    (Camera.forward c).length = 1 ∧
    Camera.forward c = Camera.forward c' := by
  refine ⟨rfl, ?_, by unfold Camera.forward; rw [hy, hp]⟩
  show Real.sqrt (Vec3.dot _ _) = 1
  have h : Vec3.dot (Camera.forward c) (Camera.forward c) = 1 := by
    show Real.cos c.yaw * Real.cos c.pitch * (Real.cos c.yaw * Real.cos c.pitch) +
        Real.sin c.pitch * Real.sin c.pitch +
        Real.sin c.yaw * Real.cos c.pitch * (Real.sin c.yaw * Real.cos c.pitch) = 1
    have key : Real.cos c.yaw * Real.cos c.pitch * (Real.cos c.yaw * Real.cos c.pitch) +
        Real.sin c.pitch * Real.sin c.pitch +
        Real.sin c.yaw * Real.cos c.pitch * (Real.sin c.yaw * Real.cos c.pitch) =
        (Real.sin c.yaw ^ 2 + Real.cos c.yaw ^ 2) * Real.cos c.pitch ^ 2 +
          Real.sin c.pitch ^ 2 := by ring
    rw [key, Real.sin_sq_add_cos_sq c.yaw, one_mul, add_comm]
    exact Real.sin_sq_add_cos_sq c.pitch
  rw [h, Real.sqrt_one]

/-- Witness for C5 at the camera `App::new` constructs (compared against
itself, with both angle hypotheses discharged by `rfl`). -/
theorem forward_formula_unit_pure_witness :
    Camera.forward initialCamera =
      ⟨Real.cos initialCamera.yaw * Real.cos initialCamera.pitch,
       Real.sin initialCamera.pitch,
       Real.sin initialCamera.yaw * Real.cos initialCamera.pitch⟩ ∧
    (Camera.forward initialCamera).length = 1 ∧
    Camera.forward initialCamera = Camera.forward initialCamera :=
  forward_formula_unit_pure initialCamera initialCamera rfl rfl

/-- C4: for any held-key set and any `dt ≥ 0`: if the accumulated movement
direction is non-zero the eye moves by a displacement of length exactly
`5 · dt`; if it is zero (no real-number analogue of NaN can arise — the
normalize-or-zero branch returns the zero vector) the eye is unchanged. The
empty key set accumulates the zero direction, and so does holding `W` and
`S` simultaneously (the contributions cancel). -/
theorem update_position_speed_law (c : Camera) (keys_down : Finset KeyCode)
    (dt : ℝ) (hdt : 0 ≤ dt) :
    (Camera.move_delta c keys_down ≠ 0 →
      ((Camera.update_position c keys_down dt).eye - c.eye).length = 5 * dt) ∧
    (Camera.move_delta c keys_down = 0 →
      (Camera.update_position c keys_down dt).eye = c.eye) ∧
    Camera.move_delta c ∅ = 0 ∧
    Camera.move_delta c {KeyCode.keyW, KeyCode.keyS} = 0 := by
  have hdisp : (Camera.update_position c keys_down dt).eye - c.eye =
      Vec3.smul dt (Vec3.smul 5 (Vec3.normalize_or_zero (Camera.move_delta c keys_down))) := by
    unfold Camera.update_position
    ext <;> simp
  refine ⟨?_, ?_, ?_, ?_⟩
  · intro hne
    rw [hdisp, Vec3.length_smul, Vec3.length_smul,
      Vec3.length_normalize_or_zero _ hne, abs_of_nonneg hdt]
    rw [show |(5 : ℝ)| = 5 by norm_num]
    ring
  · intro hz
    have hnoz : Vec3.normalize_or_zero (Camera.move_delta c keys_down) = 0 := by
      unfold Vec3.normalize_or_zero
      rw [if_pos ((Vec3.length_eq_zero_iff _).mpr hz)]
    unfold Camera.update_position
    rw [hnoz]
    ext <;> simp
  · unfold Camera.move_delta
    simp
  · unfold Camera.move_delta
    simp only [Finset.mem_insert, Finset.mem_singleton]
    have hW : KeyCode.keyW = KeyCode.keyW ∨ KeyCode.keyW = KeyCode.keyS := Or.inl rfl
    have hS : KeyCode.keyS = KeyCode.keyW ∨ KeyCode.keyS = KeyCode.keyS := Or.inr rfl
    simp [hW, hS]
    ext <;> simp

/-- Witness for C4 at the seed camera with only `W` held and `dt = 1`
(hypothesis `0 ≤ dt` discharged at `dt = 1`). -/
theorem update_position_speed_law_witness :
    (0 : ℝ) ≤ 1 ∧
    ((Camera.move_delta initialCamera {KeyCode.keyW} ≠ 0 →
      ((Camera.update_position initialCamera {KeyCode.keyW} 1).eye -
          initialCamera.eye).length = 5 * 1) ∧
    (Camera.move_delta initialCamera {KeyCode.keyW} = 0 →
      (Camera.update_position initialCamera {KeyCode.keyW} 1).eye = initialCamera.eye) ∧
    Camera.move_delta initialCamera ∅ = 0 ∧
    Camera.move_delta initialCamera {KeyCode.keyW, KeyCode.keyS} = 0) :=
  ⟨by norm_num, update_position_speed_law initialCamera {KeyCode.keyW} 1 (by norm_num)⟩

/-- C8: for the camera `App::new` constructs — eye `(0,0,3)`,
`yaw = -π/2`, `pitch = 0` — `forward()` is exactly `(0,0,-1)`, and one
`update_position` step with only `W` held and `dt = 1` moves the eye by
`5 · forward`, to exactly `(0,0,-2)` in the real-number model (well within
the claim's floating epsilon). -/
theorem seed_camera_scenario :
    Camera.forward initialCamera = ⟨0, 0, -1⟩ ∧
    (Camera.update_position initialCamera {KeyCode.keyW} 1).eye = ⟨0, 0, -2⟩ := by
  have hfwd : Camera.forward initialCamera = ⟨0, 0, -1⟩ := by
    unfold Camera.forward initialCamera Camera.new
    ext <;> simp
  have hdelta : Camera.move_delta initialCamera {KeyCode.keyW} = ⟨0, 0, -1⟩ := by
    unfold Camera.move_delta
    rw [hfwd]
    simp
    ext <;> simp
  have hlen : Vec3.length ⟨0, 0, -1⟩ = 1 := by
    unfold Vec3.length Vec3.dot
    norm_num
  have hnoz : Vec3.normalize_or_zero ⟨0, 0, -1⟩ = ⟨0, 0, -1⟩ := by
    unfold Vec3.normalize_or_zero
    rw [hlen]
    rw [if_neg (by norm_num)]
    ext <;> simp
  refine ⟨hfwd, ?_⟩
  unfold Camera.update_position
  rw [hdelta, hnoz]
  have heye : initialCamera.eye = ⟨0, 0, 3⟩ := rfl
  rw [heye]
  ext <;> norm_num
